import Mathlib

/-!
Verification development for the CORD-19 information-retrieval system.

The repository consists of a Next.js frontend (page.tsx, SearchInterface,
SearchResults, SystemStats) driving a Flask backend that implements the
indexing and retrieval engine.  The frontend sources are embedded here
directly; the backend engine (Boolean, TF-IDF vector, BM25, proximity
search, the multi-model orchestrator and the request-validation boundary)
is not part of the available sources, so those operations are modelled
from the specification, as flagged on each definition.

Numeric scores are modelled over the rationals.  The two transcendental
ingredients of the scoring formulas (the natural logarithm inside the IDF
weights and the square roots inside the L2 norms) are abstracted as
function parameters constrained by the properties the specification
states for them (IDF weights are non-negative; norms are positive).
-/

namespace Cord19

/-! ## Generic insertion sort (kernel-computable model of sorting) -/

def insertSorted (le : α → α → Bool) (x : α) : List α → List α
  | [] => [x]
  | y :: ys => if le x y then x :: y :: ys else y :: insertSorted le x ys

def sortBy (le : α → α → Bool) : List α → List α
  | [] => []
  | x :: xs => insertSorted le x (sortBy le xs)

/-! ## Data model

A document record as ingested by the engine: externally assigned identity,
title, filename, and the normalized token sequence produced by the
external tokenizer.  Document identifiers are modelled as naturals so that
the "ascending doc_id" orderings of the specification are the numeric
order. -/

structure Doc where
  doc_id : Nat
  title : String
  filename : String
  tokens : List String
deriving Repr, DecidableEq

def containsTerm (d : Doc) (t : String) : Bool :=
  d.tokens.contains t

def inDictionary (docs : List Doc) (t : String) : Bool :=
  docs.any (fun d => containsTerm d t)

def postingsDocIds (docs : List Doc) (t : String) : List Nat :=
  (docs.filter (fun d => containsTerm d t)).map (fun d => d.doc_id)

def docIdLe (a b : Doc) : Bool :=
  decide (a.doc_id ≤ b.doc_id)

/-! ## Boolean search -/

/-- Intersection of a list of document-ID sets, as folded filters. -/
def interIds (sets : List (List Nat)) : List Nat :=
  match sets with
  | [] => []
  | s :: rest => rest.foldl (fun acc l => acc.filter (fun i => l.contains i)) s

/-- Modelled from the spec: section 4.2 Boolean Search (the backend engine
is not among the available sources).  Normalize the query to a set of
terms, compute each term's inverted posting document-ID set, intersect
them (AND semantics over posting existence, ignoring positions), and
return the matching documents in ascending doc_id order.  A term with no
dictionary entry has an empty posting set, so the intersection is empty. -/
def booleanSearch (docs : List Doc) (qterms : List String) : List Doc :=
  sortBy docIdLe (docs.filter (fun d =>
    (interIds (qterms.dedup.map (postingsDocIds docs))).contains d.doc_id))

/-! ## Ranked searches (TF-IDF vector and BM25) -/

def tf (t : String) (d : Doc) : Nat :=
  d.tokens.count t

structure Scored where
  doc_id : Nat
  title : String
  score : ℚ
deriving Repr, DecidableEq

def scoredLe (a b : Scored) : Bool :=
  decide (b.score < a.score) ||
    (decide (a.score = b.score) && decide (a.doc_id ≤ b.doc_id))

/-- Shared ranking pipeline of sections 4.3 and 4.4: drop zero-score
documents, sort by descending score with ascending doc_id tie-break, and
truncate to the requested top_k. -/
def rankResults (scored : List Scored) (topK : Nat) : List Scored :=
  (sortBy scoredLe (scored.filter (fun s => !decide (s.score = 0)))).take topK

/-- Modelled from the spec: section 4.3, query vector weight
tf(t,query) * idf(t).  The idf function (a natural logarithm in the
engine, hence irrational) is abstracted as a parameter. -/
def queryWeight (idf : String → ℚ) (qterms : List String) (t : String) : ℚ :=
  (qterms.count t : ℚ) * idf t

/-- Modelled from the spec: section 4.3, document vector weight
tf(t,d) * idf(t). -/
def docWeight (idf : String → ℚ) (t : String) (d : Doc) : ℚ :=
  (tf t d : ℚ) * idf t

/-- Modelled from the spec: section 4.3, dot product of the query and
document TF-IDF vectors; only terms of the query contribute, since the
query weight of every other term is zero. -/
def vectorDot (idf : String → ℚ) (qterms : List String) (d : Doc) : ℚ :=
  (qterms.dedup.map (fun t => queryWeight idf qterms t * docWeight idf t d)).sum

/-- Modelled from the spec: section 4.3, cosine similarity.  The division
by the two L2 norms (square roots, hence irrational) is abstracted as
multiplication by positive inverse-norm parameters invQNorm (for the
query vector) and invNorm (per document). -/
def vectorScore (idf : String → ℚ) (invQNorm : ℚ) (invNorm : Nat → ℚ)
    (qterms : List String) (d : Doc) : ℚ :=
  vectorDot idf qterms d * invQNorm * invNorm d.doc_id

def bm25K1 : ℚ := 3 / 2

def bm25B : ℚ := 3 / 4

def avgdl (docs : List Doc) : ℚ :=
  (((docs.map (fun d => d.tokens.length)).sum : Nat) : ℚ) / (docs.length : ℚ)

/-- Modelled from the spec: section 4.4, per-term BM25 score contribution
idf(t) * (f(t,d) * (k1+1)) / (f(t,d) + k1 * (1 - b + b * len(d) / avgdl)),
with the smoothed idf (non-negative by the specification) abstracted as a
parameter. -/
def bm25Contribution (idf : String → ℚ) (docs : List Doc) (d : Doc) (t : String) : ℚ :=
  idf t * ((tf t d : ℚ) * (bm25K1 + 1)) /
    ((tf t d : ℚ) + bm25K1 * (1 - bm25B + bm25B * (d.tokens.length : ℚ) / avgdl docs))

/-- Modelled from the spec: section 4.4, document score as the sum of the
contributions over the distinct query terms (terms absent from the
document contribute zero since their term frequency is zero). -/
def bm25Score (idf : String → ℚ) (docs : List Doc) (qterms : List String) (d : Doc) : ℚ :=
  (qterms.dedup.map (fun t => bm25Contribution idf docs d t)).sum

def scoredOf (score : Doc → ℚ) (d : Doc) : Scored :=
  ⟨d.doc_id, d.title, score d⟩

/-- Modelled from the spec: section 4.3, TF-IDF vector search = score each
document, then apply the shared ranking pipeline. -/
def vectorSearch (idf : String → ℚ) (invQNorm : ℚ) (invNorm : Nat → ℚ)
    (docs : List Doc) (qterms : List String) (topK : Nat) : List Scored :=
  rankResults (docs.map (scoredOf (vectorScore idf invQNorm invNorm qterms))) topK

/-- Modelled from the spec: section 4.4, BM25 search = score each
document, then apply the shared ranking pipeline. -/
def bm25Search (idf : String → ℚ) (docs : List Doc) (qterms : List String)
    (topK : Nat) : List Scored :=
  rankResults (docs.map (scoredOf (bm25Score idf docs qterms))) topK

/-! ## Proximity search -/

def positions (t : String) (tokens : List String) : List Nat :=
  (tokens.enum.filter (fun p => p.2 == t)).map (fun p => p.1)

def natDist (p q : Nat) : Nat :=
  if p ≤ q then q - p else p - q

def pairDists (ps qs : List Nat) : List Nat :=
  ps.flatMap (fun p => qs.map (fun q => natDist p q))

def minDist (ps qs : List Nat) : Option Nat :=
  (pairDists ps qs).min?

structure ProxResult where
  doc_id : Nat
  title : String
  distance : Nat
deriving Repr, DecidableEq

def proxLe (a b : ProxResult) : Bool :=
  decide (a.distance < b.distance) ||
    (decide (a.distance = b.distance) && decide (a.doc_id ≤ b.doc_id))

/-- Modelled from the spec: section 4.5, the per-document proximity
check — when both terms occur in the document, the minimum positional
distance over all position pairs is computed and the document qualifies
when that minimum is at most k. -/
def proxEntry (t1 t2 : String) (k : Nat) (d : Doc) : Option ProxResult :=
  match minDist (positions t1 d.tokens) (positions t2 d.tokens) with
  | some m => if m ≤ k then some ⟨d.doc_id, d.title, m⟩ else none
  | none => none

/-- Modelled from the spec: section 4.5 Proximity Search (the backend
engine is not among the available sources).  If either term is absent
from the dictionary the result is empty; otherwise the qualifying
documents are returned ordered by ascending minimum distance then
ascending doc_id. -/
def proximitySearch (docs : List Doc) (t1 t2 : String) (k : Nat) : List ProxResult :=
  if inDictionary docs t1 && inDictionary docs t2 then
    sortBy proxLe (docs.filterMap (proxEntry t1 t2 k))
  else []

/-! ## Request boundary (serving layer validation) -/

/-- Embedding of the JavaScript string trim used by the frontend
(SearchInterface.tsx calls query.trim() etc.): drop leading and trailing
whitespace. -/
def jsTrim (s : String) : String :=
  ⟨((s.data.dropWhile Char.isWhitespace).reverse.dropWhile Char.isWhitespace).reverse⟩

inductive ApiRequest where
  | boolean (query : String)
  | vector (query : String) (topK : Int)
  | bm25 (query : String) (topK : Int)
  | proximity (term1 term2 : String) (k : Int)
  | multi (query : String) (topK : Int)
deriving Repr, DecidableEq

inductive QueryError where
  | invalidQuery
deriving Repr, DecidableEq

/-- Modelled from the spec: section 7, InvalidQuery taxonomy — a request
is valid unless its query is empty/whitespace-only, its top_k or k is
non-positive, or a required proximity term is missing. -/
def requestValid : ApiRequest → Bool
  | .boolean q => !decide (jsTrim q = "")
  | .vector q t => !decide (jsTrim q = "") && decide (0 < t)
  | .bm25 q t => !decide (jsTrim q = "") && decide (0 < t)
  | .proximity t1 t2 k =>
      !decide (jsTrim t1 = "") && !decide (jsTrim t2 = "") && decide (0 < k)
  | .multi q t => !decide (jsTrim q = "") && decide (0 < t)

/-- Modelled from the spec: section 7 — the serving boundary rejects an
invalid call with the InvalidQuery error without evaluating it, and
otherwise evaluates the query.  The evaluator is a parameter, so a
rejection provably never consults it. -/
def serveRequest (evalReq : ApiRequest → α) (req : ApiRequest) : Except QueryError α :=
  if requestValid req then .ok (evalReq req) else .error .invalidQuery

def requestK : ApiRequest → Option Int
  | .boolean _ => none
  | .vector _ t => some t
  | .bm25 _ t => some t
  | .proximity _ _ k => some k
  | .multi _ t => some t

def requestQueryBlank : ApiRequest → Bool
  | .boolean q => decide (jsTrim q = "")
  | .vector q _ => decide (jsTrim q = "")
  | .bm25 q _ => decide (jsTrim q = "")
  | .proximity t1 t2 _ => decide (jsTrim t1 = "") || decide (jsTrim t2 = "")
  | .multi q _ => decide (jsTrim q = "")

/-! ## Frontend: SearchInterface.tsx handleSubmit -/

structure SearchOptions where
  top_k : Option Int
  term1 : Option String
  term2 : Option String
  k : Option Int
deriving Repr, DecidableEq

structure DispatchCall where
  query : String
  method : String
  options : SearchOptions
deriving Repr, DecidableEq

/-- Embedding of handleSubmit in SearchInterface.tsx: an empty or
whitespace-only query returns early without dispatching; the vector and
bm25 methods pass top_k; the proximity method returns early when either
trimmed term is empty and otherwise passes the trimmed terms and k; every
other method dispatches with empty options.  The returned value is none
exactly when no search is dispatched to onSearch. -/
def handleSubmit (query method term1 term2 : String) (topK proximityK : Int) :
    Option DispatchCall :=
  if jsTrim query = "" then none
  else if method = "vector" ∨ method = "bm25" then
    some ⟨jsTrim query, method, ⟨some topK, none, none, none⟩⟩
  else if method = "proximity" then
    if jsTrim term1 = "" ∨ jsTrim term2 = "" then none
    else some ⟨jsTrim query, method,
      ⟨none, some (jsTrim term1), some (jsTrim term2), some proximityK⟩⟩
  else some ⟨jsTrim query, method, ⟨none, none, none, none⟩⟩

/-! ## Frontend: page.tsx handleSearch endpoint and payload selection -/

structure Payload where
  query : String
  top_k : Option Int
  term1 : Option String
  term2 : Option String
  k : Option Int
deriving Repr, DecidableEq

/-- JavaScript (v || dflt) on an optional number: undefined and 0 are
falsy, so both select the default. -/
def jsOrInt (v : Option Int) (dflt : Int) : Int :=
  match v with
  | some x => if x = 0 then dflt else x
  | none => dflt

/-- JavaScript (v || dflt) on an optional string: undefined and the empty
string are falsy, so both select the default. -/
def jsOrString (v : Option String) (dflt : String) : String :=
  match v with
  | some s => if s = "" then dflt else s
  | none => dflt

/-- Embedding of the switch in handleSearch (page.tsx): select the
endpoint and build the JSON payload.  The boolean case sends only the
query; vector, bm25 and multi send top_k defaulted to 5 via JavaScript
(options?.top_k || 5); proximity sends term1, term2 (defaulted to the
empty string) and k defaulted to 5; every other method falls through to
the vector endpoint with top_k fixed at 5. -/
def handleSearch (query : String) (method : String)
    (options : Option SearchOptions) : String × Payload :=
  if method = "boolean" then
    ("/api/search/boolean", ⟨query, none, none, none, none⟩)
  else if method = "vector" then
    ("/api/search/vector",
      ⟨query, some (jsOrInt (options.bind (fun o => o.top_k)) 5), none, none, none⟩)
  else if method = "bm25" then
    ("/api/search/bm25",
      ⟨query, some (jsOrInt (options.bind (fun o => o.top_k)) 5), none, none, none⟩)
  else if method = "proximity" then
    ("/api/search/proximity",
      ⟨query, none,
        some (jsOrString (options.bind (fun o => o.term1)) ""),
        some (jsOrString (options.bind (fun o => o.term2)) ""),
        some (jsOrInt (options.bind (fun o => o.k)) 5)⟩)
  else if method = "multi" then
    ("/api/search/multi",
      ⟨query, some (jsOrInt (options.bind (fun o => o.top_k)) 5), none, none, none⟩)
  else
    ("/api/search/vector", ⟨query, some 5, none, none, none⟩)

/-! ## Frontend: page.tsx handleSearch state updates -/

inductive FetchOutcome (α : Type) where
  | throws
  | response (ok : Bool) (data : α)
deriving Repr, DecidableEq

structure UiState (α : Type) where
  searchResults : Option α
  isLoading : Bool
deriving Repr, DecidableEq

/-- Embedding of the try/catch/finally of handleSearch (page.tsx): a
thrown fetch (or a non-ok HTTP status, which is turned into a throw) is
caught and sets searchResults to null, a successful response stores the
parsed data, and the finally block always clears the loading flag. -/
def handleSearchUi (prev : UiState α) (outcome : FetchOutcome α) : UiState α :=
  match outcome with
  | .throws => ⟨none, false⟩
  | .response ok data => if ok then ⟨some data, false⟩ else ⟨none, false⟩

/-! ## Frontend: SearchResults.tsx rendering -/

structure SearchResponse (α : Type) where
  error : Option String
  method : String
  query : String
  results : List α
deriving Repr, DecidableEq

inductive RenderView where
  | errorView (msg : String)
  | noResults
  | resultList
  | multiView
  | unknownMethod
deriving Repr, DecidableEq

/-- Embedding of the method switch of SearchResults.tsx: the four
single-model methods render a "no results" message when the result list
is empty and the result list otherwise; the multi-model method renders
its own per-model view; an unknown method renders a placeholder. -/
def renderResultsBody (r : SearchResponse α) : RenderView :=
  if r.method = "Boolean Search" ∨ r.method = "TF-IDF Vector Search" ∨
      r.method = "BM25 Search" ∨ r.method = "Proximity Search" then
    if r.results.isEmpty then .noResults else .resultList
  else if r.method = "Multi-Model Search" then .multiView
  else .unknownMethod

/-- Embedding of SearchResults.tsx: the guard is the JavaScript truthiness
test if (results.error) — an absent error field and an empty-string error
are both falsy, so only a non-empty error message renders the error
branch; everything else falls through to the method switch. -/
def renderSearchResults (r : SearchResponse α) : RenderView :=
  match r.error with
  | some msg => if msg = "" then renderResultsBody r else .errorView msg
  | none => renderResultsBody r

/-- Discriminator for the error branch of the rendering. -/
def isErrorView : RenderView → Bool
  | .errorView _ => true
  | _ => false

/-! ## Multi-model orchestration -/

inductive ModelOutcome (α : Type) where
  | results (items : List α)
  | errorMarker (msg : String)
deriving Repr, DecidableEq

structure MultiResponse (α : Type) where
  vector : ModelOutcome α
  bm25 : ModelOutcome α
  boolean : ModelOutcome α
deriving Repr, DecidableEq

def toOutcome : Except String (List α) → ModelOutcome α
  | .ok items => .results items
  | .error msg => .errorMarker msg

/-- Modelled from the spec: section 4.6 Multi-Model orchestration (the
backend orchestrator is not among the available sources).  The three
sub-model evaluations are taken as already-attempted outcomes (success or
failure); the orchestrator packages each one independently into the
combined response, mapping a failure to an explicit per-model error
marker, and always returns the full three-key response. -/
def multiSearch (runVector runBm25 runBoolean : Except String (List α)) :
    MultiResponse α :=
  ⟨toOutcome runVector, toOutcome runBm25, toOutcome runBoolean⟩

/-- Concrete three-document corpus from the specification's test scenario
(section 8), used by the witnesses. -/
def sampleDocs : List Doc :=
  [⟨1, "covid vaccine trial", "doc1.txt", ["covid", "vaccine", "trial"]⟩,
   ⟨2, "vaccine safety study", "doc2.txt", ["vaccine", "safety", "study"]⟩,
   ⟨3, "covid treatment options", "doc3.txt", ["covid", "treatment", "options"]⟩]

/-! ## Lemmas about the insertion sort -/

theorem mem_insertSorted (le : α → α → Bool) (x : α) (l : List α) (z : α) :
    z ∈ insertSorted le x l ↔ z = x ∨ z ∈ l := by
  induction l with
  | nil => simp [insertSorted]
  | cons y ys ih =>
    simp only [insertSorted]
    split
    · simp
    · simp [ih]; tauto

theorem mem_sortBy (le : α → α → Bool) (l : List α) (z : α) :
    z ∈ sortBy le l ↔ z ∈ l := by
  induction l with
  | nil => simp [sortBy]
  | cons x xs ih => simp [sortBy, mem_insertSorted, ih]

theorem length_insertSorted (le : α → α → Bool) (x : α) (l : List α) :
    (insertSorted le x l).length = l.length + 1 := by
  induction l with
  | nil => simp [insertSorted]
  | cons y ys ih =>
    simp only [insertSorted]
    split
    · simp
    · simp [ih]

theorem length_sortBy (le : α → α → Bool) (l : List α) :
    (sortBy le l).length = l.length := by
  induction l with
  | nil => rfl
  | cons x xs ih => simp [sortBy, length_insertSorted, ih]

theorem pairwise_insertSorted (le : α → α → Bool)
    (total : ∀ a b, le a b || le b a)
    (trans : ∀ a b c, le a b → le b c → le a c)
    (x : α) (l : List α) (h : l.Pairwise (le · ·)) :
    (insertSorted le x l).Pairwise (le · ·) := by
  induction l with
  | nil => simp [insertSorted]
  | cons y ys ih =>
    simp only [insertSorted]
    rcases List.pairwise_cons.mp h with ⟨hy, hys⟩
    split
    next hxy =>
      refine List.pairwise_cons.mpr ⟨?_, h⟩
      intro z hz
      rcases hz with _ | hz
      · exact hxy
      · exact trans x y z hxy (hy z (by assumption))
    next hxy =>
      refine List.pairwise_cons.mpr ⟨?_, ih hys⟩
      intro z hz
      rw [mem_insertSorted] at hz
      rcases hz with rfl | hz
      · have htot := total z y
        simp [hxy] at htot
        exact htot
      · exact hy z hz

theorem pairwise_sortBy (le : α → α → Bool)
    (total : ∀ a b, le a b || le b a)
    (trans : ∀ a b c, le a b → le b c → le a c)
    (l : List α) : (sortBy le l).Pairwise (le · ·) := by
  induction l with
  | nil => simp [sortBy]
  | cons x xs ih => exact pairwise_insertSorted le total trans x _ ih

/-! ## Lemmas for the Boolean search -/

theorem mem_postingsDocIds (docs : List Doc) (t : String) (i : Nat) :
    i ∈ postingsDocIds docs t ↔ ∃ d ∈ docs, containsTerm d t ∧ d.doc_id = i := by
  simp only [postingsDocIds, List.mem_map, List.mem_filter]
  constructor
  · rintro ⟨d, ⟨hd, hc⟩, rfl⟩
    exact ⟨d, hd, hc, rfl⟩
  · rintro ⟨d, hd, hc, rfl⟩
    exact ⟨d, ⟨hd, hc⟩, rfl⟩

theorem mem_foldl_filter (rest : List (List Nat)) (init : List Nat) (i : Nat) :
    i ∈ rest.foldl (fun acc l => acc.filter (fun j => l.contains j)) init ↔
      i ∈ init ∧ ∀ l ∈ rest, i ∈ l := by
  induction rest generalizing init with
  | nil => simp
  | cons l ls ih =>
    simp only [List.foldl_cons, ih, List.mem_filter, List.mem_cons]
    constructor
    · rintro ⟨⟨h1, h2⟩, h3⟩
      refine ⟨h1, ?_⟩
      intro l2 hl2
      rcases hl2 with rfl | hl2
      · exact List.elem_iff.mp h2
      · exact h3 l2 hl2
    · rintro ⟨h1, h2⟩
      exact ⟨⟨h1, List.elem_iff.mpr (h2 l (Or.inl rfl))⟩,
        fun l2 hl2 => h2 l2 (Or.inr hl2)⟩

theorem mem_interIds (sets : List (List Nat)) (hs : sets ≠ []) (i : Nat) :
    i ∈ interIds sets ↔ ∀ l ∈ sets, i ∈ l := by
  match sets with
  | [] => exact absurd rfl hs
  | s :: rest =>
    simp only [interIds, mem_foldl_filter, List.mem_cons]
    constructor
    · rintro ⟨h1, h2⟩ l hl
      rcases hl with rfl | hl
      · exact h1
      · exact h2 l hl
    · intro h
      exact ⟨h s (Or.inl rfl), fun l hl => h l (Or.inr hl)⟩

theorem dedup_map_ne_nil (docs : List Doc) (qterms : List String)
    (hq : qterms ≠ []) : qterms.dedup.map (postingsDocIds docs) ≠ [] := by
  have hdq : qterms.dedup ≠ [] := by
    intro hc
    exact hq ((List.dedup_eq_nil qterms).mp hc)
  cases h : qterms.dedup with
  | nil => exact absurd h hdq
  | cons a as => simp [h]

theorem mem_booleanSearch (docs : List Doc) (qterms : List String)
    (hq : qterms ≠ []) (hids : (docs.map (fun d => d.doc_id)).Nodup) (d : Doc) :
    d ∈ booleanSearch docs qterms ↔ d ∈ docs ∧ ∀ t ∈ qterms, containsTerm d t := by
  have hsets := dedup_map_ne_nil docs qterms hq
  simp only [booleanSearch, mem_sortBy, List.mem_filter]
  constructor
  · rintro ⟨hd, hc⟩
    refine ⟨hd, ?_⟩
    intro t ht
    have hmem : d.doc_id ∈ interIds (qterms.dedup.map (postingsDocIds docs)) :=
      List.elem_iff.mp hc
    rw [mem_interIds _ hsets] at hmem
    have h2 := hmem (postingsDocIds docs t)
      (List.mem_map.mpr ⟨t, List.mem_dedup.mpr ht, rfl⟩)
    rw [mem_postingsDocIds] at h2
    obtain ⟨d2, hd2, hc2, hid⟩ := h2
    have heq : d2 = d := List.inj_on_of_nodup_map hids hd2 hd hid
    rwa [heq] at hc2
  · rintro ⟨hd, hall⟩
    refine ⟨hd, ?_⟩
    apply List.elem_iff.mpr
    rw [mem_interIds _ hsets]
    intro l hl
    rw [List.mem_map] at hl
    obtain ⟨t, hts, rfl⟩ := hl
    rw [mem_postingsDocIds]
    exact ⟨d, hd, hall t (List.mem_dedup.mp hts), rfl⟩

theorem booleanSearch_unknown (docs : List Doc) (qterms : List String)
    (t0 : String) (ht : t0 ∈ qterms) (hd : inDictionary docs t0 = false) :
    booleanSearch docs qterms = [] := by
  have hq : qterms ≠ [] := by
    intro hc
    rw [hc] at ht
    exact absurd ht (List.not_mem_nil t0)
  have hsets := dedup_map_ne_nil docs qterms hq
  have hfilter : docs.filter (fun d =>
      (interIds (qterms.dedup.map (postingsDocIds docs))).contains d.doc_id) = [] := by
    rw [List.filter_eq_nil_iff]
    intro d hdmem hcon
    have hmem : d.doc_id ∈ interIds (qterms.dedup.map (postingsDocIds docs)) :=
      List.elem_iff.mp hcon
    rw [mem_interIds _ hsets] at hmem
    have h2 := hmem (postingsDocIds docs t0)
      (List.mem_map.mpr ⟨t0, List.mem_dedup.mpr ht, rfl⟩)
    rw [mem_postingsDocIds] at h2
    obtain ⟨d2, hd2, hc2, _⟩ := h2
    have htrue : inDictionary docs t0 = true := by
      simp only [inDictionary, List.any_eq_true]
      exact ⟨d2, hd2, hc2⟩
    rw [htrue] at hd
    cases hd
  simp only [booleanSearch, hfilter, sortBy]

theorem docIdLe_total : ∀ a b : Doc, docIdLe a b || docIdLe b a := by
  intro a b
  simp only [docIdLe, Bool.or_eq_true, decide_eq_true_eq]
  omega

theorem docIdLe_trans : ∀ a b c : Doc, docIdLe a b → docIdLe b c → docIdLe a c := by
  intro a b c
  simp only [docIdLe, decide_eq_true_eq]
  omega

theorem booleanSearch_pairwise (docs : List Doc) (qterms : List String) :
    (booleanSearch docs qterms).Pairwise (fun a b => a.doc_id ≤ b.doc_id) := by
  unfold booleanSearch
  exact (pairwise_sortBy docIdLe docIdLe_total docIdLe_trans _).imp
    (fun hab => by simpa [docIdLe] using hab)

/-! ## Claim C1: Boolean search returns exactly the all-terms matches -/

/-- Claim C1: over a corpus with distinct document identifiers and a
non-empty normalized query, the Boolean search result contains exactly
the documents whose token sequence contains every query term at least
once, ordered by ascending doc_id; and whenever some query term has no
dictionary entry, the whole result is empty. -/
theorem booleanSearch_spec (docs : List Doc) (qterms : List String)
    (hq : qterms ≠ []) (hids : (docs.map (fun d => d.doc_id)).Nodup) :
    (∀ d, d ∈ booleanSearch docs qterms ↔
        d ∈ docs ∧ ∀ t ∈ qterms, containsTerm d t) ∧
    (booleanSearch docs qterms).Pairwise (fun a b => a.doc_id ≤ b.doc_id) ∧
    (∀ t ∈ qterms, inDictionary docs t = false → booleanSearch docs qterms = []) :=
  ⟨fun d => mem_booleanSearch docs qterms hq hids d,
    booleanSearch_pairwise docs qterms,
    fun t ht hdict => booleanSearch_unknown docs qterms t ht hdict⟩

theorem booleanSearch_spec_witness :
    ((["covid", "vaccine"] : List String) ≠ []) ∧
    (sampleDocs.map (fun d => d.doc_id)).Nodup ∧
    (booleanSearch sampleDocs ["covid", "vaccine"]).Pairwise
      (fun a b => a.doc_id ≤ b.doc_id) :=
  ⟨by decide, by decide,
    (booleanSearch_spec sampleDocs ["covid", "vaccine"] (by decide) (by decide)).2.1⟩

/-! ## Lemmas for the proximity search -/

theorem positions_exists_iff (t : String) (tokens : List String) :
    positions t tokens ≠ [] ↔ (∃ p ∈ tokens.enum, p.2 = t) := by
  constructor
  · intro h
    rcases hpos : positions t tokens with _ | ⟨x, xs⟩
    · exact absurd hpos h
    · have hx : x ∈ positions t tokens := by
        rw [hpos]
        exact List.mem_cons_self x xs
      simp only [positions, List.mem_map, List.mem_filter, beq_iff_eq] at hx
      obtain ⟨p, ⟨hp1, hp2⟩, _⟩ := hx
      exact ⟨p, hp1, hp2⟩
  · rintro ⟨p, hp1, hp2⟩ hc
    have hmem : p.1 ∈ positions t tokens := by
      simp only [positions, List.mem_map, List.mem_filter, beq_iff_eq]
      exact ⟨p, ⟨hp1, hp2⟩, rfl⟩
    rw [hc] at hmem
    exact absurd hmem (List.not_mem_nil p.1)

theorem positions_ne_nil (t : String) (tokens : List String) :
    positions t tokens ≠ [] ↔ tokens.contains t := by
  rw [positions_exists_iff]
  constructor
  · rintro ⟨p, hp, rfl⟩
    have hget := List.mem_enum_iff_get?.mp hp
    exact List.elem_iff.mpr (List.get?_mem hget)
  · intro h
    obtain ⟨n, hn⟩ := List.get?_of_mem (List.elem_iff.mp h)
    exact ⟨(n, t), List.mk_mem_enum_iff_get?.mpr hn, rfl⟩

theorem pairDists_eq_nil (ps qs : List Nat) :
    pairDists ps qs = [] ↔ ps = [] ∨ qs = [] := by
  cases ps with
  | nil => simp [pairDists]
  | cons p ps2 =>
    cases qs with
    | nil => simp [pairDists, List.flatMap_eq_nil_iff]
    | cons q qs2 =>
      simp only [pairDists, List.flatMap_eq_nil_iff]
      constructor
      · intro h
        have := h p (List.mem_cons_self p ps2)
        simp at this
      · rintro (h | h) <;> simp_all

theorem minDist_eq_none_iff (ps qs : List Nat) :
    minDist ps qs = none ↔ ps = [] ∨ qs = [] := by
  rw [minDist, List.min?_eq_none_iff, pairDists_eq_nil]

theorem proxEntry_eq_some (t1 t2 : String) (k : Nat) (d : Doc) (r : ProxResult) :
    proxEntry t1 t2 k d = some r ↔
      minDist (positions t1 d.tokens) (positions t2 d.tokens) = some r.distance ∧
        r.distance ≤ k ∧ r.doc_id = d.doc_id ∧ r.title = d.title := by
  unfold proxEntry
  cases hmd : minDist (positions t1 d.tokens) (positions t2 d.tokens) with
  | none =>
    constructor
    · intro h
      exact Option.noConfusion h
    · rintro ⟨h1, h2, h3, h4⟩
      exact Option.noConfusion h1
  | some m =>
    show (if m ≤ k then some (⟨d.doc_id, d.title, m⟩ : ProxResult) else none) = some r ↔
      some m = some r.distance ∧ r.distance ≤ k ∧ r.doc_id = d.doc_id ∧ r.title = d.title
    by_cases hle : m ≤ k
    · rw [if_pos hle]
      constructor
      · intro h
        injection h with h
        subst h
        exact ⟨rfl, hle, rfl, rfl⟩
      · rintro ⟨h1, h2, h3, h4⟩
        injection h1 with h1
        cases r
        simp_all
    · rw [if_neg hle]
      constructor
      · intro h
        exact Option.noConfusion h
      · rintro ⟨h1, h2, h3, h4⟩
        injection h1 with h1
        rw [← h1] at h2
        exact absurd h2 hle

theorem proxLe_total : ∀ a b : ProxResult, proxLe a b || proxLe b a := by
  intro a b
  simp only [proxLe, Bool.or_eq_true, Bool.and_eq_true, decide_eq_true_eq]
  omega

theorem proxLe_trans : ∀ a b c : ProxResult, proxLe a b → proxLe b c → proxLe a c := by
  intro a b c hab hbc
  simp only [proxLe, Bool.or_eq_true, Bool.and_eq_true, decide_eq_true_eq] at *
  omega

/-! ## Claim C3: proximity search characterization -/

/-- Claim C3: over a corpus with distinct document identifiers, the
proximity search for term1, term2 with positive threshold k includes a
document exactly when both terms occur in it and the minimum absolute
positional distance over all position pairs is at most k; the output is
ordered by ascending minimum distance and then ascending doc_id; and if
either term is absent from the dictionary the result is empty. -/
theorem proximitySearch_spec (docs : List Doc) (t1 t2 : String) (k : Nat)
    (hk : 0 < k) (hids : (docs.map (fun d => d.doc_id)).Nodup) :
    (∀ d ∈ docs, (∃ r ∈ proximitySearch docs t1 t2 k, r.doc_id = d.doc_id) ↔
        containsTerm d t1 ∧ containsTerm d t2 ∧
          ∃ m, minDist (positions t1 d.tokens) (positions t2 d.tokens) = some m ∧
            m ≤ k) ∧
    (proximitySearch docs t1 t2 k).Pairwise
      (fun a b => a.distance < b.distance ∨
        (a.distance = b.distance ∧ a.doc_id ≤ b.doc_id)) ∧
    ((inDictionary docs t1 = false ∨ inDictionary docs t2 = false) →
      proximitySearch docs t1 t2 k = []) := by
  refine ⟨?_, ?_, ?_⟩
  · intro d hd
    constructor
    · rintro ⟨r, hr, hrid⟩
      unfold proximitySearch at hr
      by_cases hdict : (inDictionary docs t1 && inDictionary docs t2) = true
      · rw [if_pos hdict, mem_sortBy, List.mem_filterMap] at hr
        obtain ⟨d2, hd2, he⟩ := hr
        rw [proxEntry_eq_some] at he
        obtain ⟨hmd, hmk, hid, _⟩ := he
        have heq : d2 = d := by
          refine List.inj_on_of_nodup_map hids hd2 hd ?_
          rw [← hid, hrid]
        subst heq
        have hp1 : positions t1 d2.tokens ≠ [] := by
          intro hc
          rw [(minDist_eq_none_iff _ _).mpr (Or.inl hc)] at hmd
          cases hmd
        have hp2 : positions t2 d2.tokens ≠ [] := by
          intro hc
          rw [(minDist_eq_none_iff _ _).mpr (Or.inr hc)] at hmd
          cases hmd
        exact ⟨(positions_ne_nil t1 d2.tokens).mp hp1,
          (positions_ne_nil t2 d2.tokens).mp hp2,
          r.distance, hmd, hmk⟩
      · rw [if_neg hdict] at hr
        exact absurd hr (List.not_mem_nil r)
    · rintro ⟨hc1, hc2, m, hmd, hmk⟩
      have hdict : (inDictionary docs t1 && inDictionary docs t2) = true := by
        simp only [Bool.and_eq_true, inDictionary, List.any_eq_true]
        exact ⟨⟨d, hd, hc1⟩, ⟨d, hd, hc2⟩⟩
      refine ⟨⟨d.doc_id, d.title, m⟩, ?_, rfl⟩
      unfold proximitySearch
      rw [if_pos hdict, mem_sortBy, List.mem_filterMap]
      refine ⟨d, hd, ?_⟩
      rw [proxEntry_eq_some]
      exact ⟨hmd, hmk, rfl, rfl⟩
  · unfold proximitySearch
    split
    · exact (pairwise_sortBy proxLe proxLe_total proxLe_trans _).imp
        (fun hab => by
          simpa [proxLe, Bool.or_eq_true, Bool.and_eq_true, decide_eq_true_eq]
            using hab)
    · simp
  · intro h
    unfold proximitySearch
    rcases h with h | h <;> simp [h]

theorem proximitySearch_spec_witness :
    (0 < 5) ∧ (sampleDocs.map (fun d => d.doc_id)).Nodup ∧
    (proximitySearch sampleDocs "covid" "treatment" 5).Pairwise
      (fun a b => a.distance < b.distance ∨
        (a.distance = b.distance ∧ a.doc_id ≤ b.doc_id)) :=
  ⟨by decide, by decide,
    (proximitySearch_spec sampleDocs "covid" "treatment" 5 (by decide) (by decide)).2.1⟩

/-! ## Lemmas for the ranked searches -/

theorem scoredLe_total : ∀ a b : Scored, scoredLe a b || scoredLe b a := by
  intro a b
  simp only [scoredLe, Bool.or_eq_true, Bool.and_eq_true, decide_eq_true_eq]
  rcases lt_trichotomy a.score b.score with h | h | h
  · exact Or.inr (Or.inl h)
  · rcases Nat.le_total a.doc_id b.doc_id with h2 | h2
    · exact Or.inl (Or.inr ⟨h, h2⟩)
    · exact Or.inr (Or.inr ⟨h.symm, h2⟩)
  · exact Or.inl (Or.inl h)

theorem scoredLe_trans : ∀ a b c : Scored, scoredLe a b → scoredLe b c → scoredLe a c := by
  intro a b c hab hbc
  simp only [scoredLe, Bool.or_eq_true, Bool.and_eq_true, decide_eq_true_eq] at hab hbc ⊢
  rcases hab with h1 | ⟨h1, h1b⟩ <;> rcases hbc with h2 | ⟨h2, h2b⟩
  · exact Or.inl (lt_trans h2 h1)
  · refine Or.inl ?_
    rw [← h2]
    exact h1
  · refine Or.inl ?_
    rw [h1]
    exact h2
  · exact Or.inr ⟨h1.trans h2, le_trans h1b h2b⟩

theorem rankResults_mem (scored : List Scored) (topK : Nat) (x : Scored)
    (hx : x ∈ rankResults scored topK) : x ∈ scored ∧ x.score ≠ 0 := by
  unfold rankResults at hx
  have h1 := List.mem_of_mem_take hx
  rw [mem_sortBy, List.mem_filter] at h1
  refine ⟨h1.1, ?_⟩
  have h2 := h1.2
  simpa using h2

theorem rankResults_pairwise (scored : List Scored) (topK : Nat) :
    (rankResults scored topK).Pairwise
      (fun a b => b.score < a.score ∨ (a.score = b.score ∧ a.doc_id ≤ b.doc_id)) := by
  unfold rankResults
  have h := pairwise_sortBy scoredLe scoredLe_total scoredLe_trans
    (scored.filter (fun s => !decide (s.score = 0)))
  have h2 := h.sublist (List.take_sublist topK _)
  exact h2.imp (fun hab => by
    simpa [scoredLe, Bool.or_eq_true, Bool.and_eq_true, decide_eq_true_eq] using hab)

theorem rankResults_length (scored : List Scored) (topK : Nat) :
    (rankResults scored topK).length =
      min topK (scored.filter (fun s => !decide (s.score = 0))).length := by
  unfold rankResults
  rw [List.length_take, length_sortBy]

theorem filter_map_length (docs : List Doc) (score : Doc → ℚ) :
    ((docs.map (scoredOf score)).filter (fun s => !decide (s.score = 0))).length =
      (docs.filter (fun d => !decide (score d = 0))).length := by
  induction docs with
  | nil => rfl
  | cons d ds ih =>
    simp only [List.map_cons, List.filter_cons]
    by_cases h : score d = 0
    · simp [scoredOf, h, ih]
    · simp [scoredOf, h, ih]

theorem vectorDot_nonneg (idf : String → ℚ) (qterms : List String) (d : Doc)
    (hidf : ∀ t, 0 ≤ idf t) : 0 ≤ vectorDot idf qterms d := by
  apply List.sum_nonneg
  intro x hx
  rw [List.mem_map] at hx
  obtain ⟨t, _, rfl⟩ := hx
  simp only [queryWeight, docWeight]
  exact mul_nonneg (mul_nonneg (Nat.cast_nonneg _) (hidf t))
    (mul_nonneg (Nat.cast_nonneg _) (hidf t))

theorem vectorScore_nonneg (idf : String → ℚ) (invQNorm : ℚ) (invNorm : Nat → ℚ)
    (qterms : List String) (d : Doc)
    (hidf : ∀ t, 0 ≤ idf t) (hq : 0 ≤ invQNorm) (hn : ∀ i, 0 ≤ invNorm i) :
    0 ≤ vectorScore idf invQNorm invNorm qterms d :=
  mul_nonneg (mul_nonneg (vectorDot_nonneg idf qterms d hidf) hq) (hn d.doc_id)

theorem avgdl_nonneg (docs : List Doc) : 0 ≤ avgdl docs := by
  unfold avgdl
  exact div_nonneg (Nat.cast_nonneg _) (Nat.cast_nonneg _)

theorem bm25Contribution_nonneg (idf : String → ℚ) (docs : List Doc) (d : Doc)
    (t : String) (hidf : ∀ t2, 0 ≤ idf t2) : 0 ≤ bm25Contribution idf docs d t := by
  unfold bm25Contribution
  apply div_nonneg
  · apply mul_nonneg (hidf t)
    apply mul_nonneg (Nat.cast_nonneg _)
    norm_num [bm25K1]
  · apply add_nonneg (Nat.cast_nonneg _)
    apply mul_nonneg
    · norm_num [bm25K1]
    · have h1 : (0 : ℚ) ≤ bm25B * (d.tokens.length : ℚ) / avgdl docs :=
        div_nonneg (mul_nonneg (by norm_num [bm25B]) (Nat.cast_nonneg _))
          (avgdl_nonneg docs)
      have h2 : (0 : ℚ) ≤ 1 - bm25B := by norm_num [bm25B]
      linarith

theorem bm25Score_nonneg (idf : String → ℚ) (docs : List Doc)
    (qterms : List String) (d : Doc) (hidf : ∀ t, 0 ≤ idf t) :
    0 ≤ bm25Score idf docs qterms d := by
  apply List.sum_nonneg
  intro x hx
  rw [List.mem_map] at hx
  obtain ⟨t, _, rfl⟩ := hx
  exact bm25Contribution_nonneg idf docs d t hidf

/-! ## Claim C2: ranked search output discipline -/

/-- Claim C2: for every query, positive top_k, non-negative idf weights
and positive inverse norms, both the TF-IDF vector search and the BM25
search return only documents with strictly positive score, sorted by
descending score with ties broken by ascending doc_id, and the result
length is at most min(top_k, number of documents with non-zero score). -/
theorem rankedSearch_spec (idf : String → ℚ) (invQNorm : ℚ) (invNorm : Nat → ℚ)
    (docs : List Doc) (qterms : List String) (topK : Nat)
    (htop : 0 < topK) (hidf : ∀ t, 0 ≤ idf t)
    (hq : 0 < invQNorm) (hn : ∀ i, 0 < invNorm i) :
    ((∀ s ∈ vectorSearch idf invQNorm invNorm docs qterms topK, 0 < s.score) ∧
      (vectorSearch idf invQNorm invNorm docs qterms topK).Pairwise
        (fun a b => b.score < a.score ∨ (a.score = b.score ∧ a.doc_id ≤ b.doc_id)) ∧
      (vectorSearch idf invQNorm invNorm docs qterms topK).length ≤
        min topK (docs.filter
          (fun d => !decide (vectorScore idf invQNorm invNorm qterms d = 0))).length) ∧
    ((∀ s ∈ bm25Search idf docs qterms topK, 0 < s.score) ∧
      (bm25Search idf docs qterms topK).Pairwise
        (fun a b => b.score < a.score ∨ (a.score = b.score ∧ a.doc_id ≤ b.doc_id)) ∧
      (bm25Search idf docs qterms topK).length ≤
        min topK (docs.filter
          (fun d => !decide (bm25Score idf docs qterms d = 0))).length) := by
  refine ⟨⟨?_, ?_, ?_⟩, ⟨?_, ?_, ?_⟩⟩
  · intro s hs
    obtain ⟨hmem, hne⟩ := rankResults_mem _ _ _ hs
    rw [List.mem_map] at hmem
    obtain ⟨d, _, rfl⟩ := hmem
    have hnn : 0 ≤ vectorScore idf invQNorm invNorm qterms d :=
      vectorScore_nonneg idf invQNorm invNorm qterms d hidf
        (le_of_lt hq) (fun i => le_of_lt (hn i))
    exact lt_of_le_of_ne hnn (Ne.symm hne)
  · exact rankResults_pairwise _ _
  · rw [vectorSearch, rankResults_length, filter_map_length]
  · intro s hs
    obtain ⟨hmem, hne⟩ := rankResults_mem _ _ _ hs
    rw [List.mem_map] at hmem
    obtain ⟨d, _, rfl⟩ := hmem
    have hnn : 0 ≤ bm25Score idf docs qterms d :=
      bm25Score_nonneg idf docs qterms d hidf
    exact lt_of_le_of_ne hnn (Ne.symm hne)
  · exact rankResults_pairwise _ _
  · rw [bm25Search, rankResults_length, filter_map_length]

theorem rankedSearch_spec_witness :
    (0 < 2) ∧
    (vectorSearch (fun _ => 1) 1 (fun _ => 1) sampleDocs ["vaccine"] 2).Pairwise
      (fun a b => b.score < a.score ∨ (a.score = b.score ∧ a.doc_id ≤ b.doc_id)) ∧
    (bm25Search (fun _ => 1) sampleDocs ["vaccine"] 2).length ≤
      min 2 (sampleDocs.filter
        (fun d => !decide (bm25Score (fun _ => 1) sampleDocs ["vaccine"] d = 0))).length :=
  ⟨by decide,
    ((rankedSearch_spec (fun _ => 1) 1 (fun _ => 1) sampleDocs ["vaccine"] 2
        (by decide) (fun _ => zero_le_one) zero_lt_one (fun _ => zero_lt_one)).1).2.1,
    ((rankedSearch_spec (fun _ => 1) 1 (fun _ => 1) sampleDocs ["vaccine"] 2
        (by decide) (fun _ => zero_le_one) zero_lt_one (fun _ => zero_lt_one)).2).2.2⟩

/-! ## Claim C4: rejection of non-positive top_k and k at the boundary -/

/-- Claim C4: every search call carrying a non-positive top_k
(vector, bm25, multi) or a non-positive k (proximity) is rejected at the
serving boundary with the InvalidQuery error; the result is the error for
every possible evaluator, so the query is provably not evaluated. -/
theorem nonpositive_topk_rejected (α : Type) (evalReq : ApiRequest → α)
    (req : ApiRequest) (n : Int) (hk : requestK req = some n) (hn : n ≤ 0) :
    serveRequest evalReq req = .error .invalidQuery := by
  have h0 : ¬ (0 < n) := by omega
  cases req <;> simp_all [requestK, serveRequest, requestValid]

theorem nonpositive_topk_rejected_witness :
    requestK (.vector "covid" 0) = some 0 ∧ (0 : Int) ≤ 0 ∧
      serveRequest (fun _ => (0 : Nat)) (.vector "covid" 0) =
        .error .invalidQuery :=
  ⟨rfl, by decide,
    nonpositive_topk_rejected Nat (fun _ => 0) (.vector "covid" 0) 0 rfl (by decide)⟩

/-! ## Claim C5: top_k and k default to 5 -/

/-- Claim C5: when the caller supplies no top_k, the dispatched vector,
bm25 and multi payloads carry top_k = 5, and when no k is supplied the
proximity payload carries k = 5 (handleSearch in page.tsx applies the
JavaScript default options?.top_k || 5 resp. options?.k || 5). -/
theorem topk_default_five (query : String) (options : Option SearchOptions) :
    (options.bind (fun o => o.top_k) = none →
      (handleSearch query "vector" options).2.top_k = some 5 ∧
      (handleSearch query "bm25" options).2.top_k = some 5 ∧
      (handleSearch query "multi" options).2.top_k = some 5) ∧
    (options.bind (fun o => o.k) = none →
      (handleSearch query "proximity" options).2.k = some 5) := by
  constructor
  · intro h
    refine ⟨?_, ?_, ?_⟩ <;> simp [handleSearch, h, jsOrInt]
  · intro h
    simp [handleSearch, h, jsOrInt]

theorem topk_default_five_witness :
    (Option.bind (none : Option SearchOptions) (fun o => o.top_k) = none ∧
      (handleSearch "covid" "vector" none).2.top_k = some 5) ∧
    (Option.bind (none : Option SearchOptions) (fun o => o.k) = none ∧
      (handleSearch "covid" "proximity" none).2.k = some 5) :=
  ⟨⟨rfl, ((topk_default_five "covid" none).1 rfl).1⟩,
    ⟨rfl, (topk_default_five "covid" none).2 rfl⟩⟩

/-! ## Claim C6: blank queries and missing proximity terms are never dispatched -/

/-- Claim C6: an empty or whitespace-only query makes handleSubmit
(SearchInterface.tsx) return without dispatching any search; a proximity
submission with a blank term1 or term2 likewise returns without
dispatching; and at the serving boundary such a request is rejected with
the InvalidQuery error for every possible evaluator, so it is never
evaluated (and, being a total function, never crashes). -/
theorem blank_query_not_dispatched :
    (∀ (query method term1 term2 : String) (topK proximityK : Int),
        jsTrim query = "" →
        handleSubmit query method term1 term2 topK proximityK = none) ∧
    (∀ (query term1 term2 : String) (topK proximityK : Int),
        jsTrim term1 = "" ∨ jsTrim term2 = "" →
        handleSubmit query "proximity" term1 term2 topK proximityK = none) ∧
    (∀ (α : Type) (evalReq : ApiRequest → α) (req : ApiRequest),
        requestQueryBlank req = true →
        serveRequest evalReq req = .error .invalidQuery) := by
  refine ⟨?_, ?_, ?_⟩
  · intro query method term1 term2 topK proximityK h
    simp [handleSubmit, h]
  · intro query term1 term2 topK proximityK h
    by_cases hq : jsTrim query = ""
    · simp [handleSubmit, hq]
    · rcases h with h | h <;> simp [handleSubmit, hq, h]
  · intro α evalReq req h
    cases req with
    | proximity t1 t2 k =>
      simp only [requestQueryBlank, Bool.or_eq_true, decide_eq_true_eq] at h
      rcases h with h | h <;> simp [serveRequest, requestValid, h]
    | boolean q => simp_all [requestQueryBlank, serveRequest, requestValid]
    | vector q t => simp_all [requestQueryBlank, serveRequest, requestValid]
    | bm25 q t => simp_all [requestQueryBlank, serveRequest, requestValid]
    | multi q t => simp_all [requestQueryBlank, serveRequest, requestValid]

theorem blank_query_not_dispatched_witness :
    (jsTrim "   " = "" ∧
      handleSubmit "   " "vector" "a" "b" 5 5 = none) ∧
    (jsTrim "" = "" ∧
      handleSubmit "covid" "proximity" "" "b" 5 5 = none) ∧
    (requestQueryBlank (.boolean "   ") = true ∧
      serveRequest (fun _ => (0 : Nat)) (.boolean "   ") = .error .invalidQuery) :=
  ⟨⟨by decide, blank_query_not_dispatched.1 "   " "vector" "a" "b" 5 5 (by decide)⟩,
    ⟨rfl, blank_query_not_dispatched.2.1 "covid" "" "b" 5 5 (Or.inl (by decide))⟩,
    ⟨by decide, blank_query_not_dispatched.2.2 Nat (fun _ => 0) (.boolean "   ") (by decide)⟩⟩

/-! ## Lemmas for the no-match versus error distinction -/

theorem rankResults_all_zero (scored : List Scored) (topK : Nat)
    (h : ∀ s ∈ scored, s.score = 0) : rankResults scored topK = [] := by
  unfold rankResults
  have hf : scored.filter (fun s => !decide (s.score = 0)) = [] := by
    rw [List.filter_eq_nil_iff]
    intro s hs
    simp [h s hs]
  rw [hf, show sortBy scoredLe [] = [] from rfl, List.take_nil]

theorem booleanSearch_no_match (docs : List Doc) (qterms : List String)
    (hq : qterms ≠ []) (hids : (docs.map (fun d => d.doc_id)).Nodup)
    (h : ∀ d ∈ docs, ¬ ∀ t ∈ qterms, containsTerm d t) :
    booleanSearch docs qterms = [] := by
  rw [List.eq_nil_iff_forall_not_mem]
  intro d hd
  rw [mem_booleanSearch docs qterms hq hids d] at hd
  exact h d hd.1 hd.2

theorem proximitySearch_no_match (docs : List Doc) (t1 t2 : String) (k : Nat)
    (h : ∀ d ∈ docs, proxEntry t1 t2 k d = none) :
    proximitySearch docs t1 t2 k = [] := by
  unfold proximitySearch
  split
  · rw [List.filterMap_eq_nil_iff.mpr h]
    rfl
  · rfl

theorem isErrorView_renderResultsBody (α : Type) (r : SearchResponse α) :
    isErrorView (renderResultsBody r) = false := by
  unfold renderResultsBody
  split
  · split <;> rfl
  · split <;> rfl

theorem isErrorView_renderSearchResults (α : Type) (r : SearchResponse α) :
    isErrorView (renderSearchResults r) = true ↔
      ∃ msg, r.error = some msg ∧ msg ≠ "" := by
  unfold renderSearchResults
  cases he : r.error with
  | none =>
    rw [isErrorView_renderResultsBody]
    simp
  | some m =>
    show isErrorView
        (if m = "" then renderResultsBody r else RenderView.errorView m) = true ↔
      ∃ msg, some m = some msg ∧ msg ≠ ""
    by_cases hm : m = ""
    · rw [if_pos hm, isErrorView_renderResultsBody]
      simp [hm]
    · rw [if_neg hm]
      simp only [isErrorView, true_iff]
      exact ⟨m, rfl, hm⟩

theorem renderSearchResults_of_error_none (α : Type) (r : SearchResponse α)
    (he : r.error = none) : renderSearchResults r = renderResultsBody r := by
  unfold renderSearchResults
  rw [he]

theorem renderResultsBody_no_results (α : Type) (r : SearchResponse α)
    (hm : r.method = "Boolean Search" ∨ r.method = "TF-IDF Vector Search" ∨
      r.method = "BM25 Search" ∨ r.method = "Proximity Search") :
    renderResultsBody r = .noResults ↔ r.results = [] := by
  unfold renderResultsBody
  rw [if_pos hm]
  by_cases hres : r.results.isEmpty
  · rw [if_pos hres]
    simp_all
  · rw [if_neg hres]
    constructor
    · intro h
      exact absurd h (by simp)
    · intro h
      rw [h] at hres
      simp at hres

theorem renderSearchResults_no_results (α : Type) (r : SearchResponse α)
    (he : r.error = none)
    (hm : r.method = "Boolean Search" ∨ r.method = "TF-IDF Vector Search" ∨
      r.method = "BM25 Search" ∨ r.method = "Proximity Search") :
    renderSearchResults r = .noResults ↔ r.results = [] := by
  rw [renderSearchResults_of_error_none α r he]
  exact renderResultsBody_no_results α r hm

/-! ## Claim C7: empty results are a distinct signal from errors -/

/-- Claim C7 counterexample: a response whose error field is the empty
string carries an error field yet is not rendered as an error —
SearchResults.tsx guards the error branch with the JavaScript truthiness
test if (results.error), under which the empty string is falsy, so the
response falls through to the results branch and renders the no-results
message.  This refutes "rendered as an error if and only if it carries
an error field" as stated. -/
theorem no_match_vs_error_counterexample :
    (⟨some "", "Boolean Search", "covid", ([] : List Nat)⟩ :
        SearchResponse Nat).error ≠ none ∧
    isErrorView (renderSearchResults
      (⟨some "", "Boolean Search", "covid", ([] : List Nat)⟩ :
        SearchResponse Nat)) = false ∧
    renderSearchResults (⟨some "", "Boolean Search", "covid", ([] : List Nat)⟩ :
        SearchResponse Nat) = .noResults :=
  ⟨by simp, by decide, by decide⟩

/-- Claim C7 (amended): a response is rendered as an error exactly when
it carries a truthy — that is, non-empty — error field (an empty-string
error is falsy under the if (results.error) guard and falls through to
the results branch); a response without an error field whose result list
is empty renders the distinct "no results" message; and each search
operation returns the empty list (of its list-valued result type, never
an absent value) when nothing matches — the Boolean search when no
document contains all query terms, the ranked pipeline when every score
is zero, and the proximity search when no document qualifies. -/
theorem no_match_vs_error :
    (∀ (α : Type) (r : SearchResponse α),
        isErrorView (renderSearchResults r) = true ↔
          ∃ msg, r.error = some msg ∧ msg ≠ "") ∧
    (∀ (α : Type) (r : SearchResponse α),
        r.error = none →
        (r.method = "Boolean Search" ∨ r.method = "TF-IDF Vector Search" ∨
          r.method = "BM25 Search" ∨ r.method = "Proximity Search") →
        (renderSearchResults r = .noResults ↔ r.results = [])) ∧
    (∀ (docs : List Doc) (qterms : List String),
        qterms ≠ [] → (docs.map (fun d => d.doc_id)).Nodup →
        (∀ d ∈ docs, ¬ ∀ t ∈ qterms, containsTerm d t) →
        booleanSearch docs qterms = []) ∧
    (∀ (scored : List Scored) (topK : Nat),
        (∀ s ∈ scored, s.score = 0) → rankResults scored topK = []) ∧
    (∀ (docs : List Doc) (t1 t2 : String) (k : Nat),
        (∀ d ∈ docs, proxEntry t1 t2 k d = none) →
        proximitySearch docs t1 t2 k = []) :=
  ⟨isErrorView_renderSearchResults, renderSearchResults_no_results,
    booleanSearch_no_match, rankResults_all_zero, proximitySearch_no_match⟩

theorem no_match_vs_error_witness :
    renderSearchResults (⟨none, "Boolean Search", "covid", ([] : List Nat)⟩ :
        SearchResponse Nat) = .noResults ∧
    booleanSearch sampleDocs ["nonexistentterm"] = [] :=
  ⟨(no_match_vs_error.2.1 Nat ⟨none, "Boolean Search", "covid", []⟩ rfl
      (Or.inl rfl)).mpr rfl,
    no_match_vs_error.2.2.1 sampleDocs ["nonexistentterm"] (by decide) (by decide)
      (by decide)⟩

/-! ## Claim C8: multi-model failures are isolated per sub-model -/

/-- Claim C8: when exactly one of the three sub-models fails during
multi-model evaluation, the combined response still carries the other two
models' result sets together with an explicit per-model error marker for
the failed one; the orchestrator is a total function into the three-key
response record, so the response is never aborted. -/
theorem multiSearch_isolates_failure (α : Type) (msg : String) (ra rb : List α) :
    multiSearch (Except.error msg : Except String (List α)) (.ok ra) (.ok rb) =
      ⟨.errorMarker msg, .results ra, .results rb⟩ ∧
    multiSearch (Except.ok ra : Except String (List α)) (.error msg) (.ok rb) =
      ⟨.results ra, .errorMarker msg, .results rb⟩ ∧
    multiSearch (Except.ok ra : Except String (List α)) (.ok rb) (.error msg) =
      ⟨.results ra, .results rb, .errorMarker msg⟩ :=
  ⟨rfl, rfl, rfl⟩

/-! ## Claim C9: unknown methods fall through to vector search with top_k 5 -/

/-- Claim C9: for every method string other than boolean, vector, bm25,
proximity and multi, handleSearch (page.tsx) dispatches to the vector
search endpoint with top_k equal to 5. -/
theorem default_method_vector (query method : String)
    (options : Option SearchOptions)
    (h : method ∉ (["boolean", "vector", "bm25", "proximity", "multi"] : List String)) :
    handleSearch query method options =
      ("/api/search/vector", ⟨query, some 5, none, none, none⟩) := by
  simp only [List.mem_cons, List.not_mem_nil, or_false, not_or] at h
  obtain ⟨h1, h2, h3, h4, h5⟩ := h
  simp [handleSearch, h1, h2, h3, h4, h5]

theorem default_method_vector_witness :
    ("fuzzy" ∉ (["boolean", "vector", "bm25", "proximity", "multi"] : List String)) ∧
      handleSearch "covid" "fuzzy" none =
        ("/api/search/vector", ⟨"covid", some 5, none, none, none⟩) :=
  ⟨by decide, default_method_vector "covid" "fuzzy" none (by decide)⟩

/-! ## Claim C10: loading flag cleared and failed fetches reset results -/

/-- Claim C10: after every completion of handleSearch (page.tsx) the
loading flag is false (the finally block always clears it), and whenever
the fetch throws or the HTTP response is not ok the displayed search
results are set to null rather than to a partial or stale response. -/
theorem handleSearch_state_reset (α : Type) (prev : UiState α)
    (outcome : FetchOutcome α) :
    (handleSearchUi prev outcome).isLoading = false ∧
    ((outcome = .throws ∨ ∃ d, outcome = .response false d) →
      (handleSearchUi prev outcome).searchResults = none) := by
  constructor
  · cases outcome with
    | throws => rfl
    | response ok data => cases ok <;> rfl
  · rintro (rfl | ⟨d, rfl⟩)
    · rfl
    · rfl

theorem handleSearch_state_reset_witness :
    (handleSearchUi (⟨some 0, true⟩ : UiState Nat) .throws).isLoading = false ∧
    (handleSearchUi (⟨some 0, true⟩ : UiState Nat) .throws).searchResults = none :=
  ⟨(handleSearch_state_reset Nat ⟨some 0, true⟩ .throws).1,
    (handleSearch_state_reset Nat ⟨some 0, true⟩ .throws).2 (Or.inl rfl)⟩

end Cord19
